import Mathlib

/- Verification of the xade-ai agent module (src/agent.js): the technical
indicator kernel, the formatting capabilities, and the code-execution engine.

JavaScript numbers are modelled as exact rationals extended with the IEEE-754
special values NaN, +Infinity and -Infinity.  Every arithmetic step that the
verified claims exercise (division by zero, NaN propagation, ordering
comparisons, x - x on finite values) is exact in IEEE 754 binary64, so no
rounding behaviour is lost on those paths.  Negative zero is identified with
zero; no claim depends on the distinction.  A JavaScript `undefined` that flows
into arithmetic immediately becomes NaN, and is modelled as NaN at the points
where that is the only way the indicator kernel can observe it
(out-of-range array reads). -/

inductive JNum where
  | nan
  | pinf
  | ninf
  | fin (q : ℚ)
deriving DecidableEq

namespace JNum

/-- IEEE negation: -NaN = NaN, -(±∞) = ∓∞. -/
def neg : JNum → JNum
  | nan => nan
  | pinf => ninf
  | ninf => pinf
  | fin q => fin (-q)

/-- IEEE addition on exact rationals extended with specials. -/
def add : JNum → JNum → JNum
  | nan, _ => nan
  | _, nan => nan
  | pinf, ninf => nan
  | ninf, pinf => nan
  | pinf, _ => pinf
  | _, pinf => pinf
  | ninf, _ => ninf
  | _, ninf => ninf
  | fin a, fin b => fin (a + b)

/-- IEEE subtraction: x - y = x + (-y), exactly. -/
def sub (a b : JNum) : JNum := add a (neg b)

/-- IEEE multiplication; ∞ · 0 = NaN. -/
def mul : JNum → JNum → JNum
  | nan, _ => nan
  | _, nan => nan
  | pinf, pinf => pinf
  | pinf, ninf => ninf
  | ninf, pinf => ninf
  | ninf, ninf => pinf
  | pinf, fin q => if 0 < q then pinf else if q < 0 then ninf else nan
  | fin q, pinf => if 0 < q then pinf else if q < 0 then ninf else nan
  | ninf, fin q => if 0 < q then ninf else if q < 0 then pinf else nan
  | fin q, ninf => if 0 < q then ninf else if q < 0 then pinf else nan
  | fin a, fin b => fin (a * b)

/-- IEEE division; x/0 follows the sign of x (0 is +0 in this model),
0/0 = NaN, ∞/∞ = NaN, finite/∞ = 0. -/
def div : JNum → JNum → JNum
  | nan, _ => nan
  | _, nan => nan
  | pinf, pinf => nan
  | pinf, ninf => nan
  | ninf, pinf => nan
  | ninf, ninf => nan
  | pinf, fin q => if q < 0 then ninf else pinf
  | ninf, fin q => if q < 0 then pinf else ninf
  | fin _, pinf => fin 0
  | fin _, ninf => fin 0
  | fin a, fin b =>
    if b = 0 then (if 0 < a then pinf else if a < 0 then ninf else nan)
    else fin (a / b)

/-- JavaScript `<` on numbers: false whenever either side is NaN. -/
def lt : JNum → JNum → Bool
  | nan, _ => false
  | _, nan => false
  | pinf, _ => false
  | _, pinf => true
  | ninf, ninf => false
  | ninf, _ => true
  | _, ninf => false
  | fin a, fin b => decide (a < b)

/-- JavaScript `>` on numbers. -/
def gt (a b : JNum) : Bool := lt b a

/-- JavaScript `>=` on numbers: false whenever either side is NaN,
otherwise the negation of `<`. -/
def ge : JNum → JNum → Bool
  | nan, _ => false
  | _, nan => false
  | a, b => !(lt a b)

/-- JavaScript truthiness of a number: 0 and NaN are falsy. -/
def truthy : JNum → Bool
  | nan => false
  | pinf => true
  | ninf => true
  | fin q => decide (q ≠ 0)

end JNum

/- ===== Indicator Kernel (src/agent.js lines 118-179) ===== -/

/-- `calculateSMA` (agent.js 118-121): mean of the last `period` elements. -/
def calculateSMA (prices : List JNum) (period : ℕ) : JNum :=
  let sum := ((prices.reverse.take period).reverse).foldl JNum.add (JNum.fin 0)
  JNum.div sum (JNum.fin (period : ℚ))

/-- `calculateEMA` (agent.js 146-153): multiplier 2/(period+1), accumulator
seeded with `prices[0]`, recurrence `ema = (prices[i] - ema) * multiplier + ema`
over every further element of the whole input sequence.  `prices[0]` of an
empty array is `undefined`; it is represented by NaN (see header note). -/
def calculateEMA (prices : List JNum) (period : ℕ) : JNum :=
  let multiplier := JNum.div (JNum.fin 2) (JNum.fin ((period : ℚ) + 1))
  (prices.drop 1).foldl
    (fun ema p => JNum.add (JNum.mul (JNum.sub p ema) multiplier) ema)
    (prices.headD JNum.nan)

/-- `calculateMACD` (agent.js 137-144). -/
structure MACDResult where
  macdLine : JNum
  signalLine : JNum
  histogram : JNum
deriving DecidableEq

def calculateMACD (prices : List JNum) : MACDResult :=
  let ema12 := calculateEMA prices 12
  let ema26 := calculateEMA prices 26
  let macdLine := JNum.sub ema12 ema26
  let signalLine := calculateEMA [macdLine] 9
  let histogram := JNum.sub macdLine signalLine
  { macdLine := macdLine, signalLine := signalLine, histogram := histogram }

/-- JavaScript array read `prices[i]` with a possibly negative index:
out-of-range reads give `undefined`, represented by NaN since every use in
`calculateRSI` immediately feeds it into arithmetic. -/
def jsIndex (prices : List JNum) (i : ℤ) : JNum :=
  if 0 ≤ i then prices.getD i.toNat JNum.nan else JNum.nan

/-- The body of the `calculateRSI` loop (agent.js 126-130): positive deltas
are added to `gains` (first component), negative deltas are subtracted from
`losses` (second component, `losses -= difference`). -/
def rsiBody (diff : ℕ → JNum) (gl : JNum × JNum) (k : ℕ) : JNum × JNum :=
  let difference := diff k
  if JNum.ge difference (JNum.fin 0) then (JNum.add gl.1 difference, gl.2)
  else (gl.1, JNum.sub gl.2 difference)

/-- The `calculateRSI` loop: `for (let i = prices.length - period; i < prices.length; i++)`
runs exactly `period` times with i = length - period + k for k = 0, …, period-1. -/
def rsiLoop (diff : ℕ → JNum) (period : ℕ) : JNum × JNum :=
  (List.range period).foldl (rsiBody diff) (JNum.fin 0, JNum.fin 0)

/-- The k-th loop delta of `calculateRSI`:
`difference = prices[i] - prices[i-1]` at i = prices.length - period + k. -/
def rsiDiff (prices : List JNum) (period : ℕ) (k : ℕ) : JNum :=
  let L : ℤ := (prices.length : ℤ)
  JNum.sub (jsIndex prices (L - period + k)) (jsIndex prices (L - period + k - 1))

/-- `calculateRSI` (agent.js 123-135). -/
def calculateRSI (prices : List JNum) (period : ℕ) : JNum :=
  let gl := rsiLoop (rsiDiff prices period) period
  let avgGain := JNum.div gl.1 (JNum.fin (period : ℚ))
  let avgLoss := JNum.div gl.2 (JNum.fin (period : ℚ))
  let rs := JNum.div avgGain avgLoss
  JNum.sub (JNum.fin 100) (JNum.div (JNum.fin 100) (JNum.add (JNum.fin 1) rs))

/-- JavaScript `s || d` on strings: the empty string is falsy. -/
def jsOrString (a b : String) : String := if a = "" then b else a

/-- `determineTrend` (agent.js 155-163).  The `sma` argument is accepted and
never read, exactly as in the source. -/
def determineTrend (sma rsi : JNum) (macd : MACDResult) : String :=
  let signals : List String := []
  let signals :=
    if JNum.gt rsi (JNum.fin 70) then signals ++ ["Overbought"]
    else if JNum.lt rsi (JNum.fin 30) then signals ++ ["Oversold"]
    else signals
  let signals :=
    if JNum.gt macd.macdLine macd.signalLine then signals ++ ["Bullish MACD Crossover"]
    else if JNum.lt macd.macdLine macd.signalLine then signals ++ ["Bearish MACD Crossover"]
    else signals
  jsOrString (String.intercalate ", " signals) "Neutral"

/-- The claim's own description of `determineTrend` (CLAIMS C8), written as a
rule table: RSI>70 ⇒ "Overbought" else RSI<30 ⇒ "Oversold"; macdLine>signalLine
⇒ "Bullish MACD Crossover" else macdLine<signalLine ⇒ "Bearish MACD Crossover";
labels comma-joined, "Neutral" when no rule fires.  To be compared with the
implementation. -/
def trendSpec (rsi : JNum) (macd : MACDResult) : String :=
  if JNum.gt rsi (JNum.fin 70) then
    if JNum.gt macd.macdLine macd.signalLine then "Overbought, Bullish MACD Crossover"
    else if JNum.lt macd.macdLine macd.signalLine then "Overbought, Bearish MACD Crossover"
    else "Overbought"
  else if JNum.lt rsi (JNum.fin 30) then
    if JNum.gt macd.macdLine macd.signalLine then "Oversold, Bullish MACD Crossover"
    else if JNum.lt macd.macdLine macd.signalLine then "Oversold, Bearish MACD Crossover"
    else "Oversold"
  else
    if JNum.gt macd.macdLine macd.signalLine then "Bullish MACD Crossover"
    else if JNum.lt macd.macdLine macd.signalLine then "Bearish MACD Crossover"
    else "Neutral"

/- ===== TIME_PERIODS (agent.js 213-218, duplicated verbatim in the
execution context at 872-877) ===== -/

/-- `TIME_PERIODS[period]`: JavaScript object lookup, `undefined` (none) for
any key other than the four named windows. -/
def TIME_PERIODS (period : String) : Option ℕ :=
  if period = "1d" then some (24 * 60 * 60 * 1000)
  else if period = "7d" then some (7 * 24 * 60 * 60 * 1000)
  else if period = "30d" then some (30 * 24 * 60 * 60 * 1000)
  else if period = "1y" then some (365 * 24 * 60 * 60 * 1000)
  else none

/- ===== Formatting capabilities (src/agent.js 252-360 and their copies in
the execution context) ===== -/

/-- The optional fields of a Mobula market-data response that the verified
formatting capabilities read.  `none` covers an absent (or null/undefined)
field. -/
structure MarketData where
  market_cap_diluted : Option JNum := none
  liquidity : Option JNum := none
  ath : Option JNum := none
  volume_change_24h : Option JNum := none
  price_change_24h : Option JNum := none
deriving DecidableEq

/-- Two-digit zero padding for the fraction part of `toFixed(2)`. -/
def pad2 (n : ℕ) : String := if n < 10 then "0" ++ toString n else toString n

/-- `Number.prototype.toFixed(2)` (ES): NaN renders "NaN", infinities render
"Infinity"/"-Infinity"; a finite value is rounded to the nearest hundredth,
ties away from zero in magnitude, and rendered with exactly two fraction
digits.  (No verified claim depends on the rounded digits themselves; only the
absent-field paths of the formatters are at stake.) -/
def toFixed2 : JNum → String
  | JNum.nan => "NaN"
  | JNum.pinf => "Infinity"
  | JNum.ninf => "-Infinity"
  | JNum.fin q =>
    let m : ℤ := round (|q| * 100)
    (if q < 0 then "-" else "") ++ toString (m.toNat / 100) ++ "." ++ pad2 (m.toNat % 100)

/-- `expr || "N/A"` where `expr` is `data?.field?.toFixed(2)`: `undefined`
(none) and the empty string are falsy. -/
def jsOrNA : Option String → String
  | none => "N/A"
  | some s => if s = "" then "N/A" else s

/-- Module-level `marketCapDiluted` (agent.js 272-276): the template literal
puts "$" in front of whatever `data?.market_cap_diluted?.toFixed(2) || "N/A"`
produces. -/
def marketCapDiluted (data : Option MarketData) : String :=
  "$" ++ jsOrNA ((data.bind MarketData.market_cap_diluted).map toFixed2)

/-- Module-level `liquidity` (agent.js 279-283). -/
def liquidity (data : Option MarketData) : String :=
  "$" ++ jsOrNA ((data.bind MarketData.liquidity).map toFixed2)

/-- Module-level `ath` (agent.js 350-354). -/
def ath (data : Option MarketData) : String :=
  "$" ++ jsOrNA ((data.bind MarketData.ath).map toFixed2)

/-- Module-level `volumeChange24h` (agent.js 306-310): the template literal
appends "%" to whatever `data?.volume_change_24h?.toFixed(2) || "N/A"`
produces. -/
def volumeChange24h (data : Option MarketData) : String :=
  jsOrNA ((data.bind MarketData.volume_change_24h).map toFixed2) ++ "%"

/-- Module-level `priceChange24h` (agent.js 312-316). -/
def priceChange24h (data : Option MarketData) : String :=
  jsOrNA ((data.bind MarketData.price_change_24h).map toFixed2) ++ "%"

/-- The registry's own `marketCapDiluted` (agent.js 681-687, inside
`executeCode`'s context): a truthiness ternary on the raw number, returning
the bare "N/A" when the field is absent (or zero or NaN). -/
def ctxMarketCapDiluted (data : Option MarketData) : String :=
  match data.bind MarketData.market_cap_diluted with
  | some v => if JNum.truthy v then "$" ++ toFixed2 v else "N/A"
  | none => "N/A"

/-- The registry's own `liquidity` (agent.js 688-692). -/
def ctxLiquidity (data : Option MarketData) : String :=
  match data.bind MarketData.liquidity with
  | some v => if JNum.truthy v then "$" ++ toFixed2 v else "N/A"
  | none => "N/A"

/-- The registry's own `ath` (agent.js 835-839). -/
def ctxAth (data : Option MarketData) : String :=
  match data.bind MarketData.ath with
  | some v => if JNum.truthy v then "$" ++ toFixed2 v else "N/A"
  | none => "N/A"

/-- The registry's own `volumeChange24h` (agent.js 811-817). -/
def ctxVolumeChange24h (data : Option MarketData) : String :=
  match data.bind MarketData.volume_change_24h with
  | some v => if JNum.truthy v then toFixed2 v ++ "%" else "N/A"
  | none => "N/A"

/-- The registry's own `priceChange24h` (agent.js 695-701). -/
def ctxPriceChange24h (data : Option MarketData) : String :=
  match data.bind MarketData.price_change_24h with
  | some v => if JNum.truthy v then toFixed2 v ++ "%" else "N/A"
  | none => "N/A"

/-- A market-data record with every modelled field absent. -/
def mdEmpty : MarketData :=
  { market_cap_diluted := none, liquidity := none, ath := none,
    volume_change_24h := none, price_change_24h := none }

/- ===== Execution Engine (src/agent.js 633-958) ===== -/

/-- Runtime values of the executed-code fragment.  Capability functions and
host objects are opaque here: the engine claims depend on which names are
bound, not on what the capabilities compute (that is modelled separately
above). -/
inductive JSVal where
  | num (n : JNum)
  | str (s : String)
  | undef
  | fn (name : String)
  | obj (name : String)
deriving DecidableEq

/-- The Capability Registry: the `context` object literal of `executeCode`
(agent.js 641-933), keys in source order.  `new AsyncFunction` receives
exactly these names as parameters and exactly these values as arguments. -/
def context : List (String × JSVal) := [
  ("coins", JSVal.obj "coins"),
  ("getTokenName", JSVal.fn "getTokenName"),
  ("price", JSVal.fn "price"),
  ("volume", JSVal.fn "volume"),
  ("marketCap", JSVal.fn "marketCap"),
  ("marketCapDiluted", JSVal.fn "marketCapDiluted"),
  ("liquidity", JSVal.fn "liquidity"),
  ("priceChange24h", JSVal.fn "priceChange24h"),
  ("priceChange1h", JSVal.fn "priceChange1h"),
  ("priceChange7d", JSVal.fn "priceChange7d"),
  ("getPriceHistory", JSVal.fn "getPriceHistory"),
  ("getHistoricPortfolioData", JSVal.fn "getHistoricPortfolioData"),
  ("getWalletPortfolio", JSVal.fn "getWalletPortfolio"),
  ("website", JSVal.fn "website"),
  ("twitter", JSVal.fn "twitter"),
  ("telegram", JSVal.fn "telegram"),
  ("discord", JSVal.fn "discord"),
  ("description", JSVal.fn "description"),
  ("usePerplexity", JSVal.fn "usePerplexity"),
  ("cexs", JSVal.fn "cexs"),
  ("investors", JSVal.fn "investors"),
  ("distribution", JSVal.fn "distribution"),
  ("releaseSchedule", JSVal.fn "releaseSchedule"),
  ("console", JSVal.obj "console"),
  ("priceChange30d", JSVal.fn "priceChange30d"),
  ("priceHistoryData", JSVal.fn "priceHistoryData"),
  ("liquidityChange24h", JSVal.fn "liquidityChange24h"),
  ("offChainVolume", JSVal.fn "offChainVolume"),
  ("volume7d", JSVal.fn "volume7d"),
  ("volumeChange24h", JSVal.fn "volumeChange24h"),
  ("priceChange1m", JSVal.fn "priceChange1m"),
  ("priceChange1y", JSVal.fn "priceChange1y"),
  ("ath", JSVal.fn "ath"),
  ("atl", JSVal.fn "atl"),
  ("rank", JSVal.fn "rank"),
  ("totalSupply", JSVal.fn "totalSupply"),
  ("circulatingSupply", JSVal.fn "circulatingSupply"),
  ("isListed", JSVal.fn "isListed"),
  ("TIME_PERIODS", JSVal.obj "TIME_PERIODS"),
  ("portfolioAddresses", JSVal.obj "portfolioAddresses"),
  ("getSocialData", JSVal.fn "getSocialData"),
  ("getListByCategory", JSVal.fn "getListByCategory"),
  ("getTopicNews", JSVal.fn "getTopicNews")]

/-- The Capability Registry's names (the keys of the context object). -/
def contextKeys : List String := context.map Prod.fst

/-- A function produced by the `AsyncFunction` constructor is created in the
host's global scope: its free identifiers resolve against the realm's global
bindings, never against the enclosing module scope (`axios`, `API_KEYS`,
`fetchMarketData`, … are unreachable).  A representative set of genuine
Node.js global bindings, as opaque values. -/
def globalScope : List (String × JSVal) := [
  ("undefined", JSVal.undef),
  ("NaN", JSVal.num JNum.nan),
  ("Infinity", JSVal.num JNum.pinf),
  ("globalThis", JSVal.obj "globalThis"),
  ("process", JSVal.obj "process"),
  ("Math", JSVal.obj "Math"),
  ("Date", JSVal.obj "Date"),
  ("JSON", JSVal.obj "JSON"),
  ("Object", JSVal.obj "Object"),
  ("Promise", JSVal.obj "Promise")]

/-- The names bound in the host's global scope (as modelled). -/
def globalNames : List String := globalScope.map Prod.fst

/- ---- Normalizing (agent.js 635-638):
code.replace(/```javascript\n?/, "").replace(/```\n?/, "").trim() ---- -/

/-- The "```javascript" fence pattern. -/
def fenceJs : List Char := "```javascript".toList

/-- The "```" fence pattern. -/
def fence : List Char := "```".toList

/-- Drops one leading newline if present: the `\n?` part of the fence
regexes. -/
def dropNl : List Char → List Char
  | '\n' :: t => t
  | t => t

/-- `s.replace(pat\n?, "")` for a non-global regex: removes the leftmost
occurrence of `pat` (plus an optional following newline) wherever it occurs,
and only that occurrence; the rest of the string is unchanged. -/
def stripFirst (pat : List Char) : List Char → List Char
  | [] => []
  | c :: rest =>
    if pat.isPrefixOf (c :: rest) then dropNl ((c :: rest).drop pat.length)
    else c :: stripFirst pat rest

/-- The whitespace class relevant to `String.prototype.trim` for the inputs
at stake (space, tab, newline, carriage return). -/
def isWs (c : Char) : Bool := c = ' ' || c = '\t' || c = '\n' || c = '\r'

/-- `String.prototype.trim`: strips whitespace from both ends only. -/
def jsTrim (s : List Char) : List Char :=
  ((s.dropWhile isWs).reverse.dropWhile isWs).reverse

/-- The Normalizing step of `executeCode` (agent.js 635-638). -/
def cleanCode (code : List Char) : List Char :=
  jsTrim (stripFirst fence (stripFirst fenceJs code))

/-- String-level wrapper of the Normalizing step. -/
def normalizeCode (code : String) : String := String.mk (cleanCode code.toList)

/- ---- Compiling and Running: `new AsyncFunction(...Object.keys(context), body)`
invoked with `...Object.values(context)`.  The JavaScript language core is
embedded as the fragment the claims exercise: a body that is empty or a single
`return` statement whose expression is built from decimal integer literals,
identifiers and `+`.  Identifier resolution is that of a function created by
the Function constructor: parameters (the registry) first, then the realm's
global scope, otherwise a ReferenceError.  The inner try/catch wrapper that
`executeCode` adds around the body logs and rethrows the same error, so it is
semantically transparent here. ---- -/

inductive Expr where
  | lit (q : ℚ)
  | ident (x : String)
  | add (a b : Expr)
deriving DecidableEq

inductive Prog where
  | empty
  | ret (e : Expr)
deriving DecidableEq

/-- JavaScript `+` on the values the fragment can produce.  Number + number
adds, string + string concatenates; the remaining coercions (unused by any
claim) collapse to NaN. -/
def jsAdd : JSVal → JSVal → JSVal
  | JSVal.num a, JSVal.num b => JSVal.num (JNum.add a b)
  | JSVal.str a, JSVal.str b => JSVal.str (a ++ b)
  | _, _ => JSVal.num JNum.nan

/-- Expression evaluation: identifier lookup is parameters (the registry)
first, then globals, otherwise a thrown ReferenceError. -/
def evalExpr (env globals : List (String × JSVal)) : Expr → Except String JSVal
  | Expr.lit q => Except.ok (JSVal.num (JNum.fin q))
  | Expr.ident x =>
    match env.lookup x with
    | some v => Except.ok v
    | none =>
      match globals.lookup x with
      | some v => Except.ok v
      | none => Except.error ("ReferenceError: " ++ x ++ " is not defined")
  | Expr.add a b =>
    match evalExpr env globals a with
    | Except.error e => Except.error e
    | Except.ok va =>
      match evalExpr env globals b with
      | Except.error e => Except.error e
      | Except.ok vb => Except.ok (jsAdd va vb)

/-- Running the compiled body: an async function body with no `return`
returns `undefined`. -/
def runProg (env globals : List (String × JSVal)) : Prog → Except String JSVal
  | Prog.empty => Except.ok JSVal.undef
  | Prog.ret e => evalExpr env globals e

/- ---- Parser for the embedded fragment ---- -/

def isIdentStart (c : Char) : Bool := c.isAlpha || c = '_' || c = '$'

def isIdentChar (c : Char) : Bool := c.isAlphanum || c = '_' || c = '$'

def skipWs (s : List Char) : List Char := s.dropWhile isWs

/-- Numeric value of a digit string. -/
def digitsVal (ds : List Char) : ℕ :=
  ds.foldl (fun n c => 10 * n + (c.toNat - 48)) 0

/-- One term: a decimal integer literal or an identifier. -/
def parseTerm : List Char → Except String (Expr × List Char)
  | [] => Except.error "SyntaxError: Unexpected end of input"
  | c :: rest =>
    if isIdentStart c then
      Except.ok (Expr.ident (String.mk ((c :: rest).takeWhile isIdentChar)),
        (c :: rest).dropWhile isIdentChar)
    else if c.isDigit then
      Except.ok (Expr.lit ((digitsVal ((c :: rest).takeWhile Char.isDigit) : ℕ) : ℚ),
        (c :: rest).dropWhile Char.isDigit)
    else Except.error "SyntaxError: Unexpected token"

/-- Left-associated chain of `+` terms; fuel bounds the recursion by the
remaining input length. -/
def parseAddChain : ℕ → Expr → List Char → Except String (Expr × List Char)
  | 0, _, _ => Except.error "SyntaxError: Unexpected end of input"
  | fuel + 1, acc, s =>
    match skipWs s with
    | '+' :: rest =>
      match parseTerm (skipWs rest) with
      | Except.error e => Except.error e
      | Except.ok (t, rest2) => parseAddChain fuel (Expr.add acc t) rest2
    | other => Except.ok (acc, other)

/-- Compiling the normalized body: an empty body is a valid unit returning
`undefined`; otherwise the fragment accepts `return <expr> ;?`.  Anything
else is a SyntaxError, as it is for the `AsyncFunction` constructor on the
inputs at stake. -/
def parseProg (s : List Char) : Except String Prog :=
  let s1 := skipWs s
  if s1.isEmpty then Except.ok Prog.empty
  else if ("return".toList).isPrefixOf s1 then
    match s1.drop 6 with
    | [] => Except.error "SyntaxError: Unexpected end of input"
    | c :: rest =>
      if isWs c then
        match parseTerm (skipWs rest) with
        | Except.error e => Except.error e
        | Except.ok (t, r2) =>
          match parseAddChain (r2.length + 1) t r2 with
          | Except.error e => Except.error e
          | Except.ok (e, r3) =>
            match skipWs r3 with
            | ';' :: r4 => if (skipWs r4).isEmpty then Except.ok (Prog.ret e)
                           else Except.error "SyntaxError: Unexpected token"
            | [] => Except.ok (Prog.ret e)
            | _ => Except.error "SyntaxError: Unexpected token"
      else Except.error "SyntaxError: Unexpected token"
  else Except.error "SyntaxError: Unexpected token"

/-- What `executeCode` hands back to its caller: either the awaited return
value, or a thrown Error carrying a message (agent.js 954-957 rethrows). -/
inductive Outcome where
  | ret (v : JSVal)
  | thrown (msg : String)
deriving DecidableEq

/-- `executeCode` (agent.js 633-958): normalize, compile one async callable
whose parameters are the registry names, run it with the registry values; any
error from compiling or running is caught by the outer catch, logged, and
re-thrown as `new Error("Code execution failed: " + error.message)`. -/
def executeCode (code : String) : Outcome :=
  let clean := cleanCode code.toList
  match parseProg clean with
  | Except.error e => Outcome.thrown ("Code execution failed: " ++ e)
  | Except.ok p =>
    match runProg context globalScope p with
    | Except.ok v => Outcome.ret v
    | Except.error e => Outcome.thrown ("Code execution failed: " ++ e)

/- ===== Helper lemmas ===== -/

theorem JNum.add_fin_fin (a b : ℚ) : JNum.add (JNum.fin a) (JNum.fin b) = JNum.fin (a + b) := rfl

theorem JNum.sub_fin_fin (a b : ℚ) : JNum.sub (JNum.fin a) (JNum.fin b) = JNum.fin (a - b) := by
  show JNum.fin (a + -b) = JNum.fin (a - b)
  rw [← sub_eq_add_neg]

theorem JNum.mul_fin_fin (a b : ℚ) : JNum.mul (JNum.fin a) (JNum.fin b) = JNum.fin (a * b) := rfl

theorem JNum.div_fin_fin (a b : ℚ) (h : b ≠ 0) :
    JNum.div (JNum.fin a) (JNum.fin b) = JNum.fin (a / b) := by
  simp [JNum.div, h]

theorem JNum.div_fin_zero_pos (a : ℚ) (h : 0 < a) :
    JNum.div (JNum.fin a) (JNum.fin 0) = JNum.pinf := by
  simp [JNum.div, h]

theorem JNum.div_fin_zero_zero : JNum.div (JNum.fin 0) (JNum.fin 0) = JNum.nan := by
  simp [JNum.div]

theorem JNum.add_fin_pinf (a : ℚ) : JNum.add (JNum.fin a) JNum.pinf = JNum.pinf := rfl

theorem JNum.add_fin_nan (a : ℚ) : JNum.add (JNum.fin a) JNum.nan = JNum.nan := rfl

theorem JNum.div_fin_pinf (a : ℚ) : JNum.div (JNum.fin a) JNum.pinf = JNum.fin 0 := rfl

theorem JNum.div_fin_nan (a : ℚ) : JNum.div (JNum.fin a) JNum.nan = JNum.nan := rfl

theorem JNum.sub_fin_nan (a : ℚ) : JNum.sub (JNum.fin a) JNum.nan = JNum.nan := rfl

theorem JNum.ge_fin_fin (a b : ℚ) : JNum.ge (JNum.fin a) (JNum.fin b) = decide (b ≤ a) := by
  have h : JNum.ge (JNum.fin a) (JNum.fin b) = !(decide (a < b)) := rfl
  rw [h, ← decide_not, decide_eq_decide]
  exact not_lt

/-- `calculateEMA` on a one-element sequence returns the element: the loop
body never runs. -/
theorem ema_singleton (period : ℕ) (x : JNum) : calculateEMA [x] period = x := rfl

/-- The EMA of a nonempty sequence of finite values is finite. -/
theorem ema_foldl_fin (m : ℚ) : ∀ (t : List ℚ) (a : ℚ), ∃ r : ℚ,
    List.foldl (fun ema p => JNum.add (JNum.mul (JNum.sub p ema) (JNum.fin m)) ema)
      (JNum.fin a) (t.map JNum.fin) = JNum.fin r := by
  intro t
  induction t with
  | nil => exact fun a => ⟨a, rfl⟩
  | cons b t ih =>
    intro a
    obtain ⟨r, hr⟩ := ih ((b - a) * m + a)
    refine ⟨r, ?_⟩
    simpa [JNum.sub_fin_fin, JNum.mul_fin_fin, JNum.add_fin_fin] using hr

theorem calculateEMA_map_fin (qs : List ℚ) (h : qs ≠ []) (period : ℕ) :
    ∃ r : ℚ, calculateEMA (qs.map JNum.fin) period = JNum.fin r := by
  match qs with
  | a :: t =>
    have hm : JNum.div (JNum.fin 2) (JNum.fin ((period : ℚ) + 1))
        = JNum.fin (2 / ((period : ℚ) + 1)) :=
      JNum.div_fin_fin 2 _ (by positivity)
    simpa [calculateEMA, hm] using ema_foldl_fin (2 / ((period : ℚ) + 1)) t a

/- ===== C6 ===== -/

/-- C6: `calculateEMA` seeds its accumulator with the first element, uses
multiplier 2/(period+1), and applies the recurrence over every element of the
input sequence: appending one more price transforms the previous EMA of the
whole prefix by one recurrence step with multiplier 2/(period+1) (second
conjunct); and on a one-element sequence [x] it returns x unchanged for every
period (first conjunct, the seed). -/
theorem calculateEMA_contract :
    (∀ (period : ℕ) (x : JNum), calculateEMA [x] period = x) ∧
    (∀ (period : ℕ) (ps : List JNum) (p : JNum), ps ≠ [] →
      calculateEMA (ps ++ [p]) period =
        JNum.add (JNum.mul (JNum.sub p (calculateEMA ps period))
            (JNum.div (JNum.fin 2) (JNum.fin ((period : ℚ) + 1))))
          (calculateEMA ps period)) := by
  constructor
  · exact fun period x => rfl
  · intro period ps p hne
    match ps with
    | a :: t => simp [calculateEMA, List.foldl_append]

/-- Witness: the C6 contract evaluated at concrete inputs. -/
theorem calculateEMA_contract_witness :
    calculateEMA [JNum.fin 7] 5 = JNum.fin 7 ∧
    calculateEMA ([JNum.fin 1] ++ [JNum.fin 4]) 3 =
      JNum.add (JNum.mul (JNum.sub (JNum.fin 4) (calculateEMA [JNum.fin 1] 3))
          (JNum.div (JNum.fin 2) (JNum.fin (((3 : ℕ) : ℚ) + 1))))
        (calculateEMA [JNum.fin 1] 3) :=
  ⟨calculateEMA_contract.1 5 (JNum.fin 7),
   calculateEMA_contract.2 3 [JNum.fin 1] (JNum.fin 4) (by decide)⟩

/- ===== C5 ===== -/

/-- C5: for every nonempty price sequence, the MACD record's signal line
equals its macd line exactly — the signal line is the EMA of the one-element
sequence [macdLine] — and therefore the histogram is 0. -/
theorem calculateMACD_signal_eq_macd (qs : List ℚ) (h : qs ≠ []) :
    (calculateMACD (qs.map JNum.fin)).signalLine = (calculateMACD (qs.map JNum.fin)).macdLine ∧
    (calculateMACD (qs.map JNum.fin)).histogram = JNum.fin 0 := by
  obtain ⟨e12, h12⟩ := calculateEMA_map_fin qs h 12
  obtain ⟨e26, h26⟩ := calculateEMA_map_fin qs h 26
  constructor
  · simp [calculateMACD, ema_singleton]
  · simp [calculateMACD, ema_singleton, h12, h26, JNum.sub_fin_fin]

/-- Witness: the C5 property evaluated on the one-element price list [1]. -/
theorem calculateMACD_signal_eq_macd_witness :
    (calculateMACD ([(1 : ℚ)].map JNum.fin)).signalLine
      = (calculateMACD ([(1 : ℚ)].map JNum.fin)).macdLine ∧
    (calculateMACD ([(1 : ℚ)].map JNum.fin)).histogram = JNum.fin 0 :=
  calculateMACD_signal_eq_macd [(1 : ℚ)] (by decide)

/- ===== C8 ===== -/

/-- C8: `determineTrend` returns exactly the comma-joined labels of the
claim's rule table (trendSpec), and its result does not depend on the `sma`
argument. -/
theorem determineTrend_rules (sma sma2 rsi : JNum) (macd : MACDResult) :
    determineTrend sma rsi macd = determineTrend sma2 rsi macd ∧
    determineTrend sma rsi macd = trendSpec rsi macd := by
  refine ⟨rfl, ?_⟩
  unfold determineTrend trendSpec jsOrString
  rcases h1 : JNum.gt rsi (JNum.fin 70) <;> rcases h2 : JNum.lt rsi (JNum.fin 30) <;>
    rcases h3 : JNum.gt macd.macdLine macd.signalLine <;>
    rcases h4 : JNum.lt macd.macdLine macd.signalLine <;>
    simp [h1, h2, h3, h4] <;> decide

/- ===== C9 ===== -/

/-- C9: the named-window table maps "1d", "7d", "30d", "1y" to exactly
86400000, 604800000, 2592000000, 31536000000 milliseconds, and every other
window name to no value at all (`undefined`). -/
theorem TIME_PERIODS_table :
    TIME_PERIODS "1d" = some 86400000 ∧ TIME_PERIODS "7d" = some 604800000 ∧
    TIME_PERIODS "30d" = some 2592000000 ∧ TIME_PERIODS "1y" = some 31536000000 ∧
    (∀ s : String, s ≠ "1d" → s ≠ "7d" → s ≠ "30d" → s ≠ "1y" → TIME_PERIODS s = none) := by
  refine ⟨rfl, rfl, rfl, rfl, ?_⟩
  intro s h1 h2 h3 h4
  simp [TIME_PERIODS, h1, h2, h3, h4]

/-- Witness: an unrecognized window name has no duration. -/
theorem TIME_PERIODS_table_witness : TIME_PERIODS "2w" = none :=
  TIME_PERIODS_table.2.2.2.2 "2w" (by decide) (by decide) (by decide) (by decide)

/- ===== RSI loop lemmas ===== -/

/-- Reading a mapped-in-range index of a rational price list. -/
theorem jsIndex_map_fin (qs : List ℚ) (i : ℤ) (h0 : 0 ≤ i) (hlt : i < (qs.length : ℤ)) :
    jsIndex (qs.map JNum.fin) i = JNum.fin (qs.getD i.toNat 0) := by
  have hn : i.toNat < qs.length := by omega
  unfold jsIndex
  rw [if_pos h0, List.getD_eq_getElem?_getD, List.getD_eq_getElem?_getD,
    List.getElem?_map, List.getElem?_eq_getElem hn]
  simp

/-- When every loop delta is a nonnegative finite value, the RSI loop sums the
deltas into `gains` and leaves `losses` at 0. -/
theorem rsiFold_eq (diff : ℕ → JNum) (d : ℕ → ℚ) :
    ∀ (ks : List ℕ) (g : ℚ), (∀ k ∈ ks, diff k = JNum.fin (d k) ∧ 0 ≤ d k) →
      List.foldl (rsiBody diff) (JNum.fin g, JNum.fin 0) ks
        = (JNum.fin (g + (ks.map d).sum), JNum.fin 0) := by
  intro ks
  induction ks with
  | nil => intro g _; simp
  | cons k ks ih =>
    intro g h
    have hk := h k (List.mem_cons_self k ks)
    have step : rsiBody diff (JNum.fin g, JNum.fin 0) k = (JNum.fin (g + d k), JNum.fin 0) := by
      simp [rsiBody, hk.1, JNum.ge_fin_fin, hk.2, JNum.add_fin_fin]
    rw [List.foldl_cons, step, ih (g + d k) (fun x hx => h x (List.mem_cons_of_mem _ hx))]
    simp [add_assoc]

theorem rsiLoop_eq (diff : ℕ → JNum) (d : ℕ → ℚ) (period : ℕ)
    (h : ∀ k, k < period → diff k = JNum.fin (d k) ∧ 0 ≤ d k) :
    rsiLoop diff period = (JNum.fin (((List.range period).map d).sum), JNum.fin 0) := by
  have := rsiFold_eq diff d (List.range period) 0 (fun k hk => h k (List.mem_range.mp hk))
  simpa [rsiLoop] using this

/- ===== C7 ===== -/

/-- The loop deltas of `calculateRSI` over a rational price list, in range. -/
theorem rsiDiff_map_fin (qs : List ℚ) (period k : ℕ)
    (hl : period + 1 ≤ qs.length) (hk : k < period) :
    rsiDiff (qs.map JNum.fin) period k
      = JNum.fin (qs.getD (qs.length - period + k) 0 - qs.getD (qs.length - period + k - 1) 0) := by
  unfold rsiDiff
  simp only [List.length_map]
  rw [jsIndex_map_fin qs _ (by omega) (by omega), jsIndex_map_fin qs _ (by omega) (by omega)]
  have e1 : ((qs.length : ℤ) - period + k).toNat = qs.length - period + k := by omega
  have e2 : ((qs.length : ℤ) - period + k - 1).toNat = qs.length - period + k - 1 := by omega
  rw [e1, e2, JNum.sub_fin_fin]

/-- C7: for every period ≥ 1 and every price sequence of length ≥ period+1
whose last period+1 elements are strictly increasing (each consecutive delta
in the loop window is positive), `calculateRSI` returns exactly 100: the loss
sum stays 0, RS = avgGain/0 = +∞, and 100 − 100/(1+∞) saturates at 100. -/
theorem calculateRSI_increasing (qs : List ℚ) (period : ℕ)
    (hp : 1 ≤ period) (hl : period + 1 ≤ qs.length)
    (hinc : ∀ k, k < period →
      qs.getD (qs.length - period + k - 1) 0 < qs.getD (qs.length - period + k) 0) :
    calculateRSI (qs.map JNum.fin) period = JNum.fin 100 := by
  have hloop := rsiLoop_eq (rsiDiff (qs.map JNum.fin) period)
    (fun k => qs.getD (qs.length - period + k) 0 - qs.getD (qs.length - period + k - 1) 0) period
    (fun k hk => ⟨rsiDiff_map_fin qs period k hl hk, by
      have := hinc k hk
      change 0 ≤ qs.getD (qs.length - period + k) 0 - qs.getD (qs.length - period + k - 1) 0
      linarith⟩)
  have hGpos : 0 < ((List.range period).map
      (fun k => qs.getD (qs.length - period + k) 0 - qs.getD (qs.length - period + k - 1) 0)).sum := by
    apply List.sum_pos
    · intro x hx
      obtain ⟨k, hk, rfl⟩ := List.mem_map.mp hx
      have := hinc k (List.mem_range.mp hk)
      linarith
    · simp only [ne_eq, List.map_eq_nil_iff, List.range_eq_nil]
      omega
  have hpq : ((period : ℚ)) ≠ 0 := Nat.cast_ne_zero.mpr (by omega)
  simp only [calculateRSI, hloop]
  rw [JNum.div_fin_fin _ _ hpq, JNum.div_fin_fin _ _ hpq, zero_div,
    JNum.div_fin_zero_pos _ (div_pos hGpos (Nat.cast_pos.mpr (by omega))),
    JNum.add_fin_pinf, JNum.div_fin_pinf, JNum.sub_fin_fin]
  norm_num

/-- Witness: RSI of the strictly increasing window [1,2,3] with period 2 is
exactly 100. -/
theorem calculateRSI_increasing_witness :
    calculateRSI ([(1 : ℚ), 2, 3].map JNum.fin) 2 = JNum.fin 100 :=
  calculateRSI_increasing [(1 : ℚ), 2, 3] 2 (by decide) (by decide) (by decide)

/- ===== C10 ===== -/

/-- C10: for every period ≥ 1 and every price sequence of length ≥ period+1
whose last period+1 elements are all equal, `calculateRSI` returns NaN: both
sums stay 0, RS = 0/0 = NaN, and NaN propagates through every later step. -/
theorem calculateRSI_flat (qs : List ℚ) (period : ℕ)
    (hp : 1 ≤ period) (hl : period + 1 ≤ qs.length)
    (hflat : ∀ k, k < period →
      qs.getD (qs.length - period + k - 1) 0 = qs.getD (qs.length - period + k) 0) :
    calculateRSI (qs.map JNum.fin) period = JNum.nan := by
  have hloop := rsiLoop_eq (rsiDiff (qs.map JNum.fin) period) (fun _ => (0 : ℚ)) period
    (fun k hk => ⟨by rw [rsiDiff_map_fin qs period k hl hk, hflat k hk]; simp, le_refl 0⟩)
  have hpq : ((period : ℚ)) ≠ 0 := Nat.cast_ne_zero.mpr (by omega)
  simp only [calculateRSI, hloop, List.map_const', List.sum_replicate, smul_zero]
  rw [JNum.div_fin_fin _ _ hpq, zero_div, JNum.div_fin_zero_zero, JNum.add_fin_nan,
    JNum.div_fin_nan, JNum.sub_fin_nan]

/-- Witness: RSI of the flat window [5,5,5] with period 2 is NaN. -/
theorem calculateRSI_flat_witness :
    calculateRSI ([(5 : ℚ), 5, 5].map JNum.fin) 2 = JNum.nan :=
  calculateRSI_flat [(5 : ℚ), 5, 5] 2 (by decide) (by decide) (by decide)

/- ===== C3 ===== -/

/-- C3 counterexample: at a provider response with all fields absent, the
cited module-level formatters do NOT return the bare sentinel "N/A" — the
template literal attaches the "$" prefix / "%" suffix around it. -/
theorem formatters_affix_cx :
    marketCapDiluted (some mdEmpty) = "$N/A" ∧ liquidity (some mdEmpty) = "$N/A" ∧
    ath (some mdEmpty) = "$N/A" ∧ volumeChange24h (some mdEmpty) = "N/A%" ∧
    priceChange24h (some mdEmpty) = "N/A%" :=
  ⟨rfl, rfl, rfl, rfl, rfl⟩

/-- C3 amended: whenever the underlying field is absent, the cited
module-level "$"-formatters return "$N/A" and the "%"-formatters return
"N/A%" (affix attached around the sentinel); the registry's own copies of
these formatters defined inside `executeCode` return the bare "N/A". -/
theorem formatters_on_absent_field (d : MarketData) :
    (d.market_cap_diluted = none →
      marketCapDiluted (some d) = "$N/A" ∧ ctxMarketCapDiluted (some d) = "N/A") ∧
    (d.liquidity = none → liquidity (some d) = "$N/A" ∧ ctxLiquidity (some d) = "N/A") ∧
    (d.ath = none → ath (some d) = "$N/A" ∧ ctxAth (some d) = "N/A") ∧
    (d.volume_change_24h = none →
      volumeChange24h (some d) = "N/A%" ∧ ctxVolumeChange24h (some d) = "N/A") ∧
    (d.price_change_24h = none →
      priceChange24h (some d) = "N/A%" ∧ ctxPriceChange24h (some d) = "N/A") ∧
    marketCapDiluted none = "$N/A" ∧ volumeChange24h none = "N/A%" := by
  refine ⟨fun h => ⟨?_, ?_⟩, fun h => ⟨?_, ?_⟩, fun h => ⟨?_, ?_⟩, fun h => ⟨?_, ?_⟩,
    fun h => ⟨?_, ?_⟩, rfl, rfl⟩ <;>
  simp [marketCapDiluted, ctxMarketCapDiluted, liquidity, ctxLiquidity, ath, ctxAth,
    volumeChange24h, ctxVolumeChange24h, priceChange24h, ctxPriceChange24h, jsOrNA, h]

/-- Witness: the C3 amended behaviour at the all-absent record. -/
theorem formatters_on_absent_field_witness :
    marketCapDiluted (some mdEmpty) = "$N/A" ∧ ctxMarketCapDiluted (some mdEmpty) = "N/A" :=
  (formatters_on_absent_field mdEmpty).1 rfl

/- ===== C1 ===== -/

/-- Unfolding equation of `executeCode`. -/
theorem executeCode_eq (code : String) : executeCode code =
    (match parseProg (cleanCode code.toList) with
     | Except.error e => Outcome.thrown ("Code execution failed: " ++ e)
     | Except.ok p =>
       match runProg context globalScope p with
       | Except.ok v => Outcome.ret v
       | Except.error e => Outcome.thrown ("Code execution failed: " ++ e)) := rfl

/-- C1 counterexample: on syntactically invalid code the Engine does not
return a structured failure record — `executeCode` throws the wrapping Error
past its boundary (agent.js 956: `throw new Error(...)`). -/
theorem executeCode_throws_cx :
    executeCode "return @"
      = Outcome.thrown "Code execution failed: SyntaxError: Unexpected token" := by
  with_unfolding_all rfl

/-- C1 amended: every error arising during compiling or running is caught,
and re-signalled to the caller as a single thrown Error whose message is
"Code execution failed: " prefixed to the underlying error's message; a
successful run returns its value; nothing is retried (the one compile and the
one run below are all that ever happens). -/
theorem executeCode_outcome_shape (code : String) :
    (∃ v, executeCode code = Outcome.ret v) ∨
    (∃ m, executeCode code = Outcome.thrown ("Code execution failed: " ++ m)) := by
  cases hp : parseProg (cleanCode code.toList) with
  | error e => exact Or.inr ⟨e, by rw [executeCode_eq, hp]⟩
  | ok p =>
    cases hr : runProg context globalScope p with
    | ok v => exact Or.inl ⟨v, by rw [executeCode_eq, hp]; simp [hr]⟩
    | error e => exact Or.inr ⟨e, by rw [executeCode_eq, hp]; simp [hr]⟩

/- ===== C4 ===== -/


/- ===== Character-class and list lemmas for the engine ===== -/

theorem mem_of_getLast?_some (l : List Char) (x : Char) (h : l.getLast? = some x) : x ∈ l := by
  have h2 : x ∈ l.getLast? := by rw [h]; rfl
  obtain ⟨hne, rfl⟩ := List.mem_getLast?_eq_getLast h2
  exact List.getLast_mem hne

theorem takeWhile_all (p : Char → Bool) (l : List Char) (h : ∀ c ∈ l, p c = true) :
    l.takeWhile p = l := List.takeWhile_eq_self_iff.mpr h

theorem dropWhile_all (p : Char → Bool) (l : List Char) (h : ∀ c ∈ l, p c = true) :
    l.dropWhile p = [] := List.dropWhile_eq_nil_iff.mpr h

theorem dropWhile_head_false (p : Char → Bool) (l : List Char)
    (h : ∀ c, l.head? = some c → p c = false) : l.dropWhile p = l := by
  cases l with
  | nil => rfl
  | cons c t => rw [List.dropWhile_cons, h c rfl]; simp

/-- An identifier character is not whitespace and not a backtick. -/
theorem identChar_spec (c : Char) (h : isIdentChar c = true) : isWs c = false ∧ c ≠ '`' := by
  constructor
  · cases hw : isWs c with
    | false => rfl
    | true =>
      exfalso
      have hc : ((c = ' ' ∨ c = '\t') ∨ c = '\n') ∨ c = '\r' := by
        unfold isWs at hw
        simpa using hw
      rcases hc with ((h1 | h1) | h1) | h1 <;> subst h1 <;> exact absurd h (by decide)
  · intro h1
    subst h1
    exact absurd h (by decide)

theorem identStart_isChar (c : Char) (h : isIdentStart c = true) : isIdentChar c = true := by
  unfold isIdentStart at h
  unfold isIdentChar
  cases ha : c.isAlpha with
  | true => simp [Char.isAlphanum, ha]
  | false =>
    rw [ha] at h
    simp only [Bool.false_or] at h
    simp only [Char.isAlphanum, Bool.or_eq_true, decide_eq_true_eq] at h ⊢
    rcases h with h | h
    · exact Or.inl (Or.inr h)
    · exact Or.inr h

theorem lookup_eq_none_of_not_mem (l : List (String × JSVal)) (x : String)
    (h : x ∉ l.map Prod.fst) : l.lookup x = none := by
  induction l with
  | nil => rfl
  | cons kv t ih =>
    simp only [List.map_cons, List.mem_cons, not_or] at h
    rw [List.lookup]
    have : (x == kv.1) = false := beq_eq_false_iff_ne.mpr h.1
    cases kv with
    | mk k v =>
      simp only at this
      simp [this, ih h.2]

/- ===== C4 lemmas and theorems ===== -/

/-- `stripFirst` removes an occurrence of the pattern in the MIDDLE of the
string: anything before the first occurrence is kept, the occurrence itself
(plus an optional following newline) is removed, and the tail is kept. -/
theorem stripFirst_mid (p : Char) (pt : List Char) :
    ∀ (a b : List Char), p ∉ a →
      stripFirst (p :: pt) (a ++ (p :: pt) ++ b) = a ++ dropNl b := by
  intro a
  induction a with
  | nil =>
    intro b _
    have hpre : (p :: pt).isPrefixOf ((p :: pt) ++ b) = true :=
      List.isPrefixOf_iff_prefix.mpr (List.prefix_append _ _)
    show stripFirst (p :: pt) ((p :: pt) ++ b) = dropNl b
    rw [show (p :: pt) ++ b = p :: (pt ++ b) from rfl, stripFirst, if_pos (by
      rw [show p :: (pt ++ b) = (p :: pt) ++ b from rfl]; exact hpre)]
    congr 1
    rw [show p :: (pt ++ b) = (p :: pt) ++ b from rfl, List.drop_left]
  | cons x a ih =>
    intro b hx
    have hxp : (p == x) = false := beq_eq_false_iff_ne.mpr (fun he => hx (by simp [he]))
    have hpre : (p :: pt).isPrefixOf (x :: (a ++ (p :: pt) ++ b)) = false := by
      simp only [List.isPrefixOf, hxp, Bool.false_and]
    have hmem : p ∉ a := fun hm => hx (List.mem_cons_of_mem _ hm)
    calc stripFirst (p :: pt) ((x :: a) ++ (p :: pt) ++ b)
        = x :: stripFirst (p :: pt) (a ++ (p :: pt) ++ b) := by
          rw [show (x :: a) ++ (p :: pt) ++ b = x :: (a ++ (p :: pt) ++ b) from rfl,
            stripFirst, if_neg (by rw [hpre]; exact Bool.false_ne_true)]
      _ = x :: (a ++ dropNl b) := by rw [ih b hmem]
      _ = (x :: a) ++ dropNl b := rfl

/-- `stripFirst` leaves a string with no occurrence of the pattern's first
character unchanged. -/
theorem stripFirst_no_head (p : Char) (pt : List Char) :
    ∀ (l : List Char), p ∉ l → stripFirst (p :: pt) l = l := by
  intro l
  induction l with
  | nil => intro _; rfl
  | cons c t ih =>
    intro h
    have hxp : (p == c) = false := beq_eq_false_iff_ne.mpr (fun he => h (by simp [he]))
    have hpre : (p :: pt).isPrefixOf (c :: t) = false := by
      simp only [List.isPrefixOf, hxp, Bool.false_and]
    rw [stripFirst, if_neg (by rw [hpre]; exact Bool.false_ne_true),
      ih (fun hm => h (List.mem_cons_of_mem _ hm))]

/-- `jsTrim` leaves a string alone when neither end is whitespace. -/
theorem jsTrim_eq_self (l : List Char)
    (h1 : ∀ c, l.head? = some c → isWs c = false)
    (h2 : ∀ c, l.getLast? = some c → isWs c = false) : jsTrim l = l := by
  unfold jsTrim
  rw [dropWhile_head_false isWs l h1,
    dropWhile_head_false isWs l.reverse (fun c hc => h2 c (by rwa [List.head?_reverse] at hc)),
    List.reverse_reverse]

/-- The Normalizing step leaves a string alone when it contains no backtick
and neither end is whitespace. -/
theorem cleanCode_eq_self (l : List Char)
    (htick : '`' ∉ l)
    (h1 : ∀ c, l.head? = some c → isWs c = false)
    (h2 : ∀ c, l.getLast? = some c → isWs c = false) : cleanCode l = l := by
  unfold cleanCode
  rw [show fenceJs = '`' :: "``javascript".toList from rfl, stripFirst_no_head _ _ l htick,
    show fence = '`' :: "``".toList from rfl, stripFirst_no_head _ _ l htick]
  exact jsTrim_eq_self l h1 h2

/-- C4 counterexample: the normalizer is not restricted to the edges — with
no code fence at either edge and no surrounding whitespace, the interior
"```" of "ab```cd" is still removed, so normalization changes interior text. -/
theorem normalizeCode_interior_cx : normalizeCode "ab```cd" ≠ "ab```cd" := by decide

/-- C4 amended: the Normalizing step removes the FIRST occurrence of a
"```" fence marker (plus an optional following newline) wherever it occurs in
the string — not only at the leading/trailing edges (first conjunct; the
"```javascript" marker is removed the same way by `stripFirst fenceJs`) — and
trims surrounding whitespace; a string whose markers do wrap a `return 1+1;`
body executes to the success value 2 (second conjunct); on "ab```cd" the
interior marker is removed giving "abcd" (third conjunct). -/
theorem normalizeCode_behavior :
    (∀ (a b : List Char), '`' ∉ a →
      stripFirst fence (a ++ fence ++ b) = a ++ dropNl b) ∧
    executeCode "```javascript\nreturn 1+1;\n```" = Outcome.ret (JSVal.num (JNum.fin 2)) ∧
    normalizeCode "ab```cd" = "abcd" := by
  refine ⟨?_, by with_unfolding_all rfl, by with_unfolding_all rfl⟩
  intro a b h
  exact stripFirst_mid '`' "``".toList a b h

/-- Witness: the C4 fence-removal equation at a concrete mid-string
occurrence. -/
theorem normalizeCode_behavior_witness :
    stripFirst fence ("ab".toList ++ fence ++ "cd".toList) = "ab".toList ++ dropNl "cd".toList :=
  normalizeCode_behavior.1 "ab".toList "cd".toList (by decide)

/- ===== C2 lemmas and theorems ===== -/

/-- Parsing `return <ident>`: the fragment compiles to a program returning
that identifier. -/
theorem parseProg_return_ident (c : Char) (t : List Char)
    (hstart : isIdentStart c = true) (hall : ∀ x ∈ t, isIdentChar x = true) :
    parseProg ("return ".toList ++ (c :: t))
      = Except.ok (Prog.ret (Expr.ident (String.mk (c :: t)))) := by
  have hcall : ∀ x ∈ (c :: t), isIdentChar x = true := by
    intro x hx
    rcases List.mem_cons.mp hx with h | h
    · subst h; exact identStart_isChar _ hstart
    · exact hall x h
  have hskip : skipWs (c :: t) = c :: t :=
    dropWhile_head_false isWs (c :: t) (fun x hx => by
      rw [List.head?_cons] at hx
      cases hx
      exact (identChar_spec c (identStart_isChar c hstart)).1)
  have htake : (c :: t).takeWhile isIdentChar = c :: t := takeWhile_all _ _ hcall
  have hdrop : (c :: t).dropWhile isIdentChar = [] := dropWhile_all _ _ hcall
  have hterm : parseTerm (skipWs (c :: t)) = Except.ok (Expr.ident (String.mk (c :: t)), []) := by
    rw [hskip, parseTerm, if_pos hstart, htake, hdrop]
  have hstep : parseProg ("return ".toList ++ (c :: t))
      = (match parseTerm (skipWs (c :: t)) with
         | Except.error e => Except.error e
         | Except.ok (tm, r2) =>
           match parseAddChain (r2.length + 1) tm r2 with
           | Except.error e => Except.error e
           | Except.ok (e2, r3) =>
             match skipWs r3 with
             | ';' :: r4 => if (skipWs r4).isEmpty then Except.ok (Prog.ret e2)
                            else Except.error "SyntaxError: Unexpected token"
             | [] => Except.ok (Prog.ret e2)
             | _ => Except.error "SyntaxError: Unexpected token") := rfl
  rw [hstep, hterm]
  rfl


/-- The Engine on a body `return <ident>`: normalization leaves the body
alone, compilation produces the identifier program, and the outcome is
whatever identifier resolution yields. -/
theorem executeCode_return_ident_eq (c : Char) (t : List Char)
    (hstart : isIdentStart c = true) (hall : ∀ x ∈ t, isIdentChar x = true) :
    executeCode (String.mk ("return ".toList ++ (c :: t)))
      = (match evalExpr context globalScope (Expr.ident (String.mk (c :: t))) with
         | Except.ok v => Outcome.ret v
         | Except.error e => Outcome.thrown ("Code execution failed: " ++ e)) := by
  have hcall : ∀ x ∈ (c :: t), isIdentChar x = true := by
    intro x hx
    rcases List.mem_cons.mp hx with h | h
    · subst h; exact identStart_isChar _ hstart
    · exact hall x h
  have hId : cleanCode ("return ".toList ++ (c :: t)) = "return ".toList ++ (c :: t) := by
    apply cleanCode_eq_self
    · intro hmem
      rcases List.mem_append.mp hmem with h | h
      · exact absurd h (by decide)
      · rcases List.mem_cons.mp h with h | h
        · exact (identChar_spec c (identStart_isChar c hstart)).2 h.symm
        · exact absurd (hall '`' h) (by decide)
    · intro x hx
      rw [show ("return ".toList ++ (c :: t)) = 'r' :: ("eturn ".toList ++ (c :: t)) from rfl,
        List.head?_cons] at hx
      cases hx
      decide
    · intro x hx
      rw [List.getLast?_append] at hx
      cases hy : (c :: t).getLast? with
      | none => rw [hy] at hx; simp at hy
      | some y =>
        rw [hy] at hx
        simp only [Option.or, Option.some.injEq] at hx
        subst hx
        exact (identChar_spec y (hcall y (mem_of_getLast?_some (c :: t) y hy))).1
  rw [executeCode_eq,
    show (String.mk ("return ".toList ++ (c :: t))).toList = "return ".toList ++ (c :: t) from rfl,
    hId, parseProg_return_ident c t hstart hall]
  rfl

/-- Unfolding equation for identifier resolution. -/
theorem evalExpr_ident_eq (x : String) :
    evalExpr context globalScope (Expr.ident x)
      = (match context.lookup x with
         | some v => Except.ok v
         | none =>
           match globalScope.lookup x with
           | some v => Except.ok v
           | none => Except.error ("ReferenceError: " ++ x ++ " is not defined")) := rfl

/-- C2 counterexample: `process` is not one of the Capability Registry's
names, yet executed code `return process` does not fail — it silently
resolves to the Node.js global `process` object, because the AsyncFunction
body is compiled in the host's global scope. -/
theorem executeCode_ambient_cx :
    executeCode "return process" = Outcome.ret (JSVal.obj "process")
      ∧ "process" ∉ contextKeys := ⟨by with_unfolding_all rfl, by decide⟩

/-- C2 amended: an identifier that the executed code references resolves
against the registry's names first and the host realm's global bindings
second.  A name bound in neither throws a ReferenceError (first conjunct) —
but a name that is absent from the registry while naming a host global
resolves silently to that ambient value (second conjunct); only the module's
lexical scope is unreachable. -/
theorem executeCode_scope_resolution :
    (∀ (c : Char) (t : List Char), isIdentStart c = true →
      (∀ x ∈ t, isIdentChar x = true) →
      String.mk (c :: t) ∉ contextKeys → String.mk (c :: t) ∉ globalNames →
      executeCode (String.mk ("return ".toList ++ (c :: t)))
        = Outcome.thrown ("Code execution failed: ReferenceError: "
            ++ String.mk (c :: t) ++ " is not defined")) ∧
    (∀ (c : Char) (t : List Char) (v : JSVal), isIdentStart c = true →
      (∀ x ∈ t, isIdentChar x = true) →
      String.mk (c :: t) ∉ contextKeys → globalScope.lookup (String.mk (c :: t)) = some v →
      executeCode (String.mk ("return ".toList ++ (c :: t))) = Outcome.ret v) := by
  constructor
  · intro c t h1 h2 h3 h4
    have hctx : context.lookup (String.mk (c :: t)) = none := lookup_eq_none_of_not_mem _ _ h3
    have hglob : globalScope.lookup (String.mk (c :: t)) = none := lookup_eq_none_of_not_mem _ _ h4
    rw [executeCode_return_ident_eq c t h1 h2, evalExpr_ident_eq, hctx, hglob]
    rfl
  · intro c t v h1 h2 h3 h4
    have hctx : context.lookup (String.mk (c :: t)) = none := lookup_eq_none_of_not_mem _ _ h3
    rw [executeCode_return_ident_eq c t h1 h2, evalExpr_ident_eq, hctx, h4]

/-- Witness: `return foo` (bound nowhere) throws a ReferenceError; `return
Math` (a host global absent from the registry) returns the ambient Math
object. -/
theorem executeCode_scope_resolution_witness :
    executeCode (String.mk ("return ".toList ++ ('f' :: "oo".toList)))
      = Outcome.thrown ("Code execution failed: ReferenceError: "
          ++ String.mk ('f' :: "oo".toList) ++ " is not defined") ∧
    executeCode (String.mk ("return ".toList ++ ('M' :: "ath".toList)))
      = Outcome.ret (JSVal.obj "Math") :=
  ⟨executeCode_scope_resolution.1 'f' "oo".toList (by decide) (by decide) (by decide) (by decide),
   executeCode_scope_resolution.2 'M' "ath".toList (JSVal.obj "Math")
     (by decide) (by decide) (by decide) (by decide)⟩
